import Mathlib

/-!
Shallow embedding of the XSSpect scanner core (Go) in Lean 4.

Go strings are modelled as `List Char`, one `Char` per byte; every concrete
input used below is ASCII, where this model agrees with Go's byte strings
and `strings.ToLower`. Index arithmetic (window offsets, positions) matches
Go's byte offsets under this assumption.
-/

/-- Model of Go `strings.ToLower` restricted to ASCII: map each byte. -/
def toLowerChar (c : Char) : Char :=
  if 'A' ≤ c ∧ c ≤ 'Z' then Char.ofNat (c.toNat + 32) else c

/-- `strings.ToLower` over the byte-list model. -/
def goToLower (s : List Char) : List Char := s.map toLowerChar

/-- Model of Go `strings.Index s sub`: first byte offset of `sub` in `s`,
`none` where Go returns `-1`. Matches Go on the empty pattern (offset 0). -/
def firstIndex (sub : List Char) : List Char → Option Nat
  | [] => if sub.isEmpty then some 0 else none
  | c :: t =>
    if sub.isPrefixOf (c :: t) then some 0
    else (firstIndex sub t).map (fun k => k + 1)

/-- Model of Go `strings.LastIndex s sub`: last byte offset of `sub` in `s`,
`none` where Go returns `-1`. Matches Go on the empty pattern (offset `len s`). -/
def lastIndex (sub : List Char) : List Char → Option Nat
  | [] => if sub.isEmpty then some 0 else none
  | c :: t =>
    match lastIndex sub t with
    | some k => some (k + 1)
    | none => if sub.isPrefixOf (c :: t) then some 0 else none

/-- Model of Go `strings.Contains s sub` (`Index(s, sub) >= 0`). -/
def goContains (s sub : List Char) : Bool := (firstIndex sub s).isSome

/-- Worker for `replaceAll`: the `Nat` counts bytes still covered by the last
match, consumed without further matching (Go replaces non-overlapping
occurrences left to right). -/
def replaceAllAux (old new : List Char) : Nat → List Char → List Char
  | _, [] => []
  | k + 1, _ :: t => replaceAllAux old new k t
  | 0, c :: t =>
    if old.isPrefixOf (c :: t) ∧ old ≠ [] then
      new ++ replaceAllAux old new (old.length - 1) t
    else c :: replaceAllAux old new 0 t

/-- Model of Go `strings.ReplaceAll s old new` for nonempty `old` (every call
site in the scanner passes a nonempty literal pattern). -/
def replaceAll (old new s : List Char) : List Char := replaceAllAux old new 0 s

/-- `ReflectionType` from reporter.go. -/
inductive ReflectionType where
  | NoReflection
  | EscapedReflection
  | RawReflection
deriving DecidableEq

/-- `AnalysisResult` from reporter.go (the Go field `Type` is `type` here). -/
structure AnalysisResult where
  type : ReflectionType
  parameter : List Char
  payload : List Char
  responseSnippet : List Char
deriving DecidableEq

def singleQuote : List Char := [Char.ofNat 39]

/-- `escapeHTML` from reporter.go: `&`, `<`, `>`, `"`, `'` in that order. -/
def escapeHTML (s : List Char) : List Char :=
  replaceAll singleQuote "&#39;".toList
    (replaceAll "\"".toList "&quot;".toList
      (replaceAll ">".toList "&gt;".toList
        (replaceAll "<".toList "&lt;".toList
          (replaceAll "&".toList "&amp;".toList s))))

/-- `containsEncodedPayload` from reporter.go. NOTE: the Go code computes
`"&#" + string(rune(char)) + ";"`, i.e. the character itself between `&#`
and `;`, not its decimal code, so this is what is modelled. -/
def containsEncodedPayload (responseBody payload : List Char) : Bool :=
  payload.any (fun c => goContains responseBody ("&#".toList ++ [c] ++ ";".toList))

/-- The exact-match exclusion table of `isCommonHTMLFragment`. -/
def commonFragments : List (List Char) :=
  ["<script", "</script>", "<script>",
   "<style", "</style>", "<style>",
   "<div", "</div>", "<div>",
   "<span", "</span>", "<span>",
   "<svg", "</svg>", "<svg>",
   "<img", "</img>", "<img>",
   "<a", "</a>", "<a>",
   "<body", "</body>", "<body>",
   "<html", "</html>", "<html>",
   "<head", "</head>", "<head>",
   "<link", "</link>", "<link>",
   "<meta", "</meta>", "<meta>",
   "<iframe", "</iframe>", "<iframe>",
   "<form", "</form>", "<form>",
   "<input", "</input>", "<input>",
   "<button", "</button>", "<button>",
   "<p", "</p>", "<p>",
   "<h1", "</h1>", "<h1>",
   "<h2", "</h2>", "<h2>",
   "<h3", "</h3>", "<h3>",
   "<ul", "</ul>", "<ul>",
   "<li", "</li>", "<li>",
   "<table", "</table>", "<table>",
   "<tr", "</tr>", "<tr>",
   "<td", "</td>", "<td>"].map String.toList

/-- `isCommonHTMLFragment` from reporter.go: exact membership in the table. -/
def isCommonHTMLFragment (s : List Char) : Bool :=
  commonFragments.any (fun fragment => s = fragment)

/-- The `safeContexts` slice of `isInDangerousContext`, in source order. -/
def safeContexts : List (List Char) :=
  ["<!--", "<title>", "<textarea", "<noscript>", "<style", "<xmp>",
   "<plaintext>", "<listing>"].map String.toList

/-- The `closingTags` map of `isInDangerousContext`; a missing key yields
the zero value `""`, as in Go. -/
def closingTagOf (safeCtx : List Char) : List Char :=
  if safeCtx = "<!--".toList then "-->".toList
  else if safeCtx = "<title>".toList then "</title>".toList
  else if safeCtx = "<textarea".toList then "</textarea>".toList
  else if safeCtx = "<noscript>".toList then "</noscript>".toList
  else if safeCtx = "<style".toList then "</style>".toList
  else if safeCtx = "<xmp>".toList then "</xmp>".toList
  else if safeCtx = "<plaintext>".toList then []
  else if safeCtx = "<listing>".toList then "</listing>".toList
  else []

/-- The `for _, safeCtx := range safeContexts` loop of `isInDangerousContext`:
an iteration either returns `false` (safe) or moves on; falling off the end
returns `true` (dangerous). -/
def dangerousLoop (contextLower : List Char) (payloadPos payloadLen : Nat) :
    List (List Char) → Bool
  | [] => true
  | safeCtx :: rest =>
    match lastIndex safeCtx (contextLower.take payloadPos) with
    | none => dangerousLoop contextLower payloadPos payloadLen rest
    | some _ =>
      if (closingTagOf safeCtx).isEmpty then false
      else
        match firstIndex (closingTagOf safeCtx) (contextLower.drop payloadPos) with
        | none => false
        | some closingPos =>
          if payloadLen < closingPos then false
          else dangerousLoop contextLower payloadPos payloadLen rest

/-- The window `responseBody[contextStart:contextEnd]` of
`isInDangerousContext`: 500 bytes each side of the payload occurrence,
clamped to the body (Nat subtraction clamps `index - 500` at 0). -/
def contextWindow (responseBody payload : List Char) (index : Nat) : List Char :=
  (responseBody.take (min (index + payload.length + 500) responseBody.length)).drop
    (index - 500)

/-- `isInDangerousContext` from reporter.go. The inner `none` branch is
unreachable (lowering preserves the occurrence found by the outer index;
on `-1` the Go code would slice out of range), and is mapped to `true`. -/
def isInDangerousContext (responseBody payload : List Char) : Bool :=
  match firstIndex payload responseBody with
  | none => false
  | some index =>
    match firstIndex (goToLower payload)
        (goToLower (contextWindow responseBody payload index)) with
    | none => true
    | some payloadPos =>
      dangerousLoop (goToLower (contextWindow responseBody payload index))
        payloadPos payload.length safeContexts

/-- The snippet extraction at the top of `AnalyzeResponse`. -/
def responseSnippet (responseBody : List Char) : List Char :=
  if 40 < responseBody.length then responseBody.take 40 else responseBody

/-- The `escapePatterns` table of `AnalyzeResponse`, in source order. -/
def escapePatterns : List (List Char × List Char) :=
  [("<".toList, "&lt;".toList),
   (">".toList, "&gt;".toList),
   ("\"".toList, "&quot;".toList),
   (singleQuote, "&#39;".toList),
   (singleQuote, "&apos;".toList),
   ("&".toList, "&amp;".toList)]

/-- The cumulative partial-escaping loop of `AnalyzeResponse`: `testPayload`
is rewritten by each pattern in turn and checked against the body. -/
def patternLoop (responseBody : List Char) :
    List Char → List (List Char × List Char) → Bool
  | _, [] => false
  | testPayload, (pfrom, pto) :: rest =>
    if goContains responseBody (replaceAll pfrom pto testPayload) then true
    else patternLoop responseBody (replaceAll pfrom pto testPayload) rest

/-- The fall-through tail of `AnalyzeResponse`: full-escape check, partial
escape patterns, numeric-entity check, else `NoReflection`. This code runs
when the literal payload is absent, or present but disqualified by the
short-payload guard. -/
def checkEscapedReflection (responseBody payload parameter : List Char) :
    AnalysisResult :=
  if (escapeHTML payload ≠ payload) ∧ goContains responseBody (escapeHTML payload) = true then
    ⟨ReflectionType.EscapedReflection, parameter, payload, responseSnippet responseBody⟩
  else if patternLoop responseBody payload escapePatterns then
    ⟨ReflectionType.EscapedReflection, parameter, payload, responseSnippet responseBody⟩
  else if containsEncodedPayload responseBody payload then
    ⟨ReflectionType.EscapedReflection, parameter, payload, responseSnippet responseBody⟩
  else
    ⟨ReflectionType.NoReflection, parameter, payload, responseSnippet responseBody⟩

/-- `AnalyzeResponse` from reporter.go. -/
def AnalyzeResponse (responseBody payload parameter : List Char) : AnalysisResult :=
  if goContains responseBody payload then
    if decide (3 ≤ payload.length) || !isCommonHTMLFragment payload then
      if isInDangerousContext responseBody payload then
        ⟨ReflectionType.RawReflection, parameter, payload, responseSnippet responseBody⟩
      else
        ⟨ReflectionType.EscapedReflection, parameter, payload, responseSnippet responseBody⟩
    else checkEscapedReflection responseBody payload parameter
  else checkEscapedReflection responseBody payload parameter

/-! ## Requester (requester.go)

`SendRequest` performs real network I/O; its environment is modelled as an
oracle `attempts : Nat → AttemptOutcome` giving, for each attempt index, the
result of `client.Do` plus body read. `http.NewRequest` is a pure function
of the already-validated method and URL and cannot fail for the scanner's
inputs, so request construction errors are not part of the oracle. Go errors
are modelled by their `Error()` message, the only part the code inspects.
`time.Sleep` calls are recorded as a trace of durations in seconds. -/

/-- `MaxRetries` from requester.go. -/
def MaxRetries : Nat := 2

/-- One attempt's outcome: a valid HTTP response (of any status) with its
body, or a transport error carrying its message. -/
inductive AttemptOutcome where
  | ok (status : Nat) (body : List Char)
  | transportError (msg : List Char)
deriving DecidableEq

/-- `RequestResult` from requester.go (zero values 0 and `""` persist when
an error is returned, as for Go's zero-valued struct fields). -/
structure RequestResult where
  statusCode : Nat
  responseBody : List Char
  error : Option (List Char)
deriving DecidableEq

/-- The message of `fmt.Errorf("request failed after %d retries: %w", MaxRetries, lastErr)`.
With transport errors this line is unreachable (the final attempt returns its
error directly); the `none` rendering mirrors `fmt`'s `%!w(<nil>)`. -/
def wrapRetryError (lastErr : Option (List Char)) : List Char :=
  "request failed after 2 retries: ".toList ++ lastErr.getD "%!w(<nil>)".toList

/-- The retryable error patterns of `isRetryableError`, in source order. -/
def retryablePatterns : List (List Char) :=
  ["timeout", "connection refused", "connection reset", "temporary failure",
   "network is unreachable", "no route to host", "broken pipe",
   "connection timed out", "i/o timeout"].map String.toList

/-- `isRetryableError` from requester.go. -/
def isRetryableError : Option (List Char) → Bool
  | none => false
  | some msg => retryablePatterns.any (fun pat => goContains (goToLower msg) pat)

/-- The retry loop of `SendRequest`. `fuel` counts the loop iterations still
allowed (`attempt <= MaxRetries` holds exactly while `fuel > 0` under the
invariant `fuel + attempt = MaxRetries + 1`). The second component of the
result is the trace of `time.Sleep` durations in seconds. -/
def sendLoop (attempts : Nat → AttemptOutcome) :
    Nat → Nat → Option (List Char) → RequestResult × List Nat
  | 0, _, lastErr => (⟨0, [], some (wrapRetryError lastErr)⟩, [])
  | fuel + 1, attempt, _ =>
    match attempts attempt with
    | AttemptOutcome.transportError e =>
      if attempt < MaxRetries ∧ isRetryableError (some e) = true then
        ((sendLoop attempts fuel (attempt + 1) (some e)).1,
         (attempt + 1) :: (sendLoop attempts fuel (attempt + 1) (some e)).2)
      else (⟨0, [], some e⟩, [])
    | AttemptOutcome.ok status body => (⟨status, body, none⟩, [])

/-- `SendRequest` from requester.go, over the attempt oracle; returns the
`RequestResult` together with the sleep trace. -/
def SendRequest (attempts : Nat → AttemptOutcome) : RequestResult × List Nat :=
  sendLoop attempts (MaxRetries + 1) 0 none

/-! ## Orchestrator (`scanParameter` and the parameter loop of `main`)

Per-trial effects are oracles: `step` gives, for a payload, the combined
outcome of `BuildRequestURL` and `SendRequest`; `verify` gives the outcome
of `browserVerifier.VerifyWithRetry`. -/

/-- Outcome of URL building plus the HTTP request for one payload. -/
inductive StepOutcome where
  | urlError
  | requestError (msg : List Char)
  | response (body : List Char)
deriving DecidableEq

/-- Outcome of `VerifyWithRetry` for one payload. -/
inductive VerifyOutcome where
  | verifyError (msg : List Char)
  | verified (detected : Bool) (eventType : List Char)
deriving DecidableEq

/-- `ScanResult` from reporter.go. -/
structure ScanResult where
  parameter : List Char
  payload : List Char
  reflectionType : ReflectionType
  browserVerified : Bool
  xssEventType : List Char
deriving DecidableEq

/-- The conditional browser-verification step of `scanParameter`: the pair
(`browserVerified`, `xssEventType`), defaulting to `(false, "")`. -/
def browserStep (browserVerify browserAvailable : Bool) (verdict : ReflectionType)
    (verify : List Char → VerifyOutcome) (payload : List Char) : Bool × List Char :=
  if browserVerify = true ∧ browserAvailable = true ∧
      verdict = ReflectionType.RawReflection then
    match verify payload with
    | VerifyOutcome.verifyError _ => (false, [])
    | VerifyOutcome.verified detected eventType =>
      if detected then (true, eventType) else (false, [])
  else (false, [])

/-- The `ScanResult` recorded for one successful trial of `scanParameter`. -/
def mkTrial (browserVerify browserAvailable : Bool)
    (param payload body : List Char) (verify : List Char → VerifyOutcome) : ScanResult :=
  ⟨param, payload, (AnalyzeResponse body payload param).type,
   (browserStep browserVerify browserAvailable
      (AnalyzeResponse body payload param).type verify payload).1,
   (browserStep browserVerify browserAvailable
      (AnalyzeResponse body payload param).type verify payload).2⟩

/-- `scanParameter` from the CLI driver: iterate the payloads, skip trials
whose URL build or request failed, record a trial per response, and return
early after a raw hit when `stopOnHit` is set. -/
def scanParameter (stopOnHit browserVerify browserAvailable : Bool) (param : List Char)
    (step : List Char → StepOutcome) (verify : List Char → VerifyOutcome) :
    List (List Char) → List ScanResult
  | [] => []
  | payload :: rest =>
    match step payload with
    | StepOutcome.urlError =>
      scanParameter stopOnHit browserVerify browserAvailable param step verify rest
    | StepOutcome.requestError _ =>
      scanParameter stopOnHit browserVerify browserAvailable param step verify rest
    | StepOutcome.response body =>
      if (AnalyzeResponse body payload param).type = ReflectionType.RawReflection ∧
          stopOnHit = true then
        [mkTrial browserVerify browserAvailable param payload body verify]
      else
        mkTrial browserVerify browserAvailable param payload body verify ::
          scanParameter stopOnHit browserVerify browserAvailable param step verify rest

/-- The parameter loop of `main`: results of all parameters, concatenated in
order (`scanSummary.Results = append(scanSummary.Results, paramResults...)`). -/
def scanAll (stopOnHit browserVerify : Bool) (browserAvailable : List Char → Bool)
    (step : List Char → List Char → StepOutcome)
    (verify : List Char → List Char → VerifyOutcome)
    (payloads : List (List Char)) : List (List Char) → List ScanResult
  | [] => []
  | param :: rest =>
    scanParameter stopOnHit browserVerify (browserAvailable param) param
        (step param) (verify param) payloads ++
      scanAll stopOnHit browserVerify browserAvailable step verify payloads rest

/-- Whether a payload's trial would record a raw reflection (request
succeeded and the classifier says `RawReflection`). -/
def isRawHit (param : List Char) (step : List Char → StepOutcome)
    (payload : List Char) : Bool :=
  match step payload with
  | StepOutcome.response body =>
    decide ((AnalyzeResponse body payload param).type = ReflectionType.RawReflection)
  | _ => false

/-- Whether the HTTP request for a payload ends in a transport error. -/
def isRequestError (step : List Char → StepOutcome) (payload : List Char) : Bool :=
  match step payload with
  | StepOutcome.requestError _ => true
  | _ => false

/-! ## Concrete environments used to instantiate the general theorems -/

/-- Every attempt fails with `connection refused` (retryable). -/
def attemptsAllRefused : Nat → AttemptOutcome :=
  fun _ => AttemptOutcome.transportError ("connection refused".toList)

/-- Every attempt fails with `i/o timeout` (retryable). -/
def attemptsAllTimeout : Nat → AttemptOutcome :=
  fun _ => AttemptOutcome.transportError ("i/o timeout".toList)

/-- Attempt 0 fails with `connection refused`; attempt 1 answers HTTP 500. -/
def attemptsOneRefusal : Nat → AttemptOutcome := fun i =>
  if i = 0 then AttemptOutcome.transportError ("connection refused".toList)
  else AttemptOutcome.ok 500 ("Internal Server Error".toList)

/-- Per-payload responses: `BBB` and `CCC` are reflected raw, `AAA` is not. -/
def stepRefl : List Char → StepOutcome := fun payload =>
  if payload = "BBB".toList then StepOutcome.response ("xBBBx".toList)
  else if payload = "CCC".toList then StepOutcome.response ("xCCCx".toList)
  else StepOutcome.response ("nothing here".toList)

/-- A verifier that never detects anything (verification disabled in the C7 instance). -/
def verifyNone : List Char → VerifyOutcome :=
  fun _ => VerifyOutcome.verified false []

/-- Per-parameter, per-payload responses reflecting the payload raw. -/
def stepRaw : List Char → List Char → StepOutcome := fun _ payload =>
  StepOutcome.response ("a".toList ++ payload ++ "b".toList)

/-- A verifier that always reports an executed `alert`. -/
def verifyAlert : List Char → List Char → VerifyOutcome :=
  fun _ _ => VerifyOutcome.verified true ("alert".toList)

/-! ## Helper lemmas -/

theorem firstIndex_nil (s : List Char) : firstIndex [] s = some 0 := by
  cases s with
  | nil => rfl
  | cons c t => rfl

theorem goContains_nil (s : List Char) : goContains s [] = true := by
  unfold goContains
  rw [firstIndex_nil]
  rfl

theorem dangerousLoop_take_zero (contextLower : List Char) :
    dangerousLoop contextLower 0 0 safeContexts = true := rfl

theorem isInDangerousContext_nil (responseBody : List Char) :
    isInDangerousContext responseBody [] = true := by
  simp only [isInDangerousContext, firstIndex_nil, goToLower, List.map_nil,
    List.length_nil]
  exact dangerousLoop_take_zero _

theorem checkEscapedReflection_ne_raw (responseBody payload parameter : List Char) :
    (checkEscapedReflection responseBody payload parameter).type ≠
      ReflectionType.RawReflection := by
  unfold checkEscapedReflection
  split
  · simp
  · split
    · simp
    · split
      · simp
      · simp

-- An iteration of the safe-context loop never returns `true` early, so any
-- member context whose closing tag is absent after the payload forces `false`.
theorem dangerousLoop_eq_false (contextLower : List Char) (payloadPos payloadLen : Nat)
    (l : List (List Char)) (safeCtx : List Char) (hmem : safeCtx ∈ l)
    (hopen : (lastIndex safeCtx (contextLower.take payloadPos)).isSome = true)
    (hclose : firstIndex (closingTagOf safeCtx) (contextLower.drop payloadPos) = none) :
    dangerousLoop contextLower payloadPos payloadLen l = false := by
  induction l with
  | nil => cases hmem
  | cons c rest ih =>
    rcases List.mem_cons.mp hmem with hEq | hMem
    · subst hEq
      obtain ⟨k, hk⟩ := Option.isSome_iff_exists.mp hopen
      simp only [dangerousLoop, hk, hclose]
      split <;> rfl
    · have hres := ih hMem
      simp only [dangerousLoop]
      cases hl : lastIndex c (contextLower.take payloadPos) with
      | none => simp only [hl]; exact hres
      | some k =>
        simp only [hl]
        split
        · rfl
        · cases hcl : firstIndex (closingTagOf c) (contextLower.drop payloadPos) with
          | none => simp only [hcl]
          | some cp =>
            simp only [hcl]
            split
            · rfl
            · exact hres

/-! ## Claim theorems: classifier -/

/-- C1: the code at the failing inputs. For a payload sitting immediately
inside `<textarea>...</textarea>` or `<title>...</title>` the closing tag
starts exactly `len(payload)` bytes after the payload position, the safe
branch demands a strictly larger offset, and `AnalyzeResponse` therefore
returns `RawReflection`, against the spec's safe-container rule; the
comment form `<!-- P -->`, whose closing marker sits one byte further,
is classified `EscapedReflection` as specified. -/
theorem c1_safe_container_bug :
    (AnalyzeResponse "<textarea>abc</textarea>".toList "abc".toList "q".toList).type =
        ReflectionType.RawReflection ∧
      (AnalyzeResponse "<title>abc</title>".toList "abc".toList "q".toList).type =
        ReflectionType.RawReflection ∧
      (AnalyzeResponse "<!-- abc -->".toList "abc".toList "q".toList).type =
        ReflectionType.EscapedReflection := by
  refine ⟨by decide, by decide, by decide⟩

/-- C2 counterexample: payload `ab` (length 2, not in the exclusion table)
literally present in `xabx` is classified `RawReflection` by the literal
branch, while the fall-through code the claim predicts would have produced
`EscapedReflection`. -/
theorem c2_short_payload_counterexample :
    (AnalyzeResponse "xabx".toList "ab".toList "q".toList).type =
        ReflectionType.RawReflection ∧
      (checkEscapedReflection "xabx".toList "ab".toList "q".toList).type =
        ReflectionType.EscapedReflection := by
  refine ⟨by decide, by decide⟩

/-- C2 amended: the guard `len(payload) >= 3 || !isCommonHTMLFragment(payload)`
exempts a short literal payload from the literal-hit branch only when it IS
in the exclusion table; the only members shorter than 3 bytes are `<a` and
`<p`, and for those `AnalyzeResponse` falls through to the escaped-encoding
checks and can never return `RawReflection`. -/
theorem c2_short_payload_amended (responseBody parameter payload : List Char)
    (hp : payload = "<a".toList ∨ payload = "<p".toList) :
    AnalyzeResponse responseBody payload parameter =
      checkEscapedReflection responseBody payload parameter ∧
    (AnalyzeResponse responseBody payload parameter).type ≠
      ReflectionType.RawReflection := by
  have hq : (decide (3 ≤ payload.length) || !isCommonHTMLFragment payload) = false := by
    rcases hp with h | h <;> subst h <;> decide
  have heq : AnalyzeResponse responseBody payload parameter =
      checkEscapedReflection responseBody payload parameter := by
    unfold AnalyzeResponse
    split
    · rw [hq]
      rfl
    · rfl
  exact ⟨heq, heq ▸ checkEscapedReflection_ne_raw _ _ _⟩

/-- C2 witness: instantiation of the amended claim at payload `<a` and body
`z<a>z`. -/
theorem c2_short_payload_witness :
    AnalyzeResponse "z<a>z".toList "<a".toList "q".toList =
      checkEscapedReflection "z<a>z".toList "<a".toList "q".toList ∧
    (AnalyzeResponse "z<a>z".toList "<a".toList "q".toList).type ≠
      ReflectionType.RawReflection :=
  c2_short_payload_amended "z<a>z".toList "q".toList "<a".toList (Or.inl rfl)

/-- C3 counterexample: body `<!--abc` with payload `abc` has the comment
opener before the payload and no `-->` after it, and the dangerous-context
test returns safe (`false`), so `AnalyzeResponse` returns
`EscapedReflection` — not the `RawReflection` the claim asserts. -/
theorem c3_missing_close_counterexample :
    isInDangerousContext "<!--abc".toList "abc".toList = false ∧
      (AnalyzeResponse "<!--abc".toList "abc".toList "q".toList).type =
        ReflectionType.EscapedReflection := by
  refine ⟨by decide, by decide⟩

/-- C3 amended: when some safe-container opener occurs before the payload in
the lower-cased window and its closing tag does NOT occur at or after the
payload within the window (`Index` returns `-1`), the dangerous-context test
returns safe, and `AnalyzeResponse` returns `EscapedReflection` for a
qualifying payload. -/
theorem c3_missing_close_amended (responseBody payload safeCtx parameter : List Char)
    (index payloadPos : Nat)
    (hidx : firstIndex payload responseBody = some index)
    (hpos : firstIndex (goToLower payload)
        (goToLower (contextWindow responseBody payload index)) = some payloadPos)
    (hmem : safeCtx ∈ safeContexts)
    (hopen : (lastIndex safeCtx
        ((goToLower (contextWindow responseBody payload index)).take payloadPos)).isSome =
        true)
    (hclose : firstIndex (closingTagOf safeCtx)
        ((goToLower (contextWindow responseBody payload index)).drop payloadPos) = none)
    (hqual : (decide (3 ≤ payload.length) || !isCommonHTMLFragment payload) = true) :
    isInDangerousContext responseBody payload = false ∧
      (AnalyzeResponse responseBody payload parameter).type =
        ReflectionType.EscapedReflection := by
  have hd : isInDangerousContext responseBody payload = false := by
    simp only [isInDangerousContext, hidx, hpos]
    exact dangerousLoop_eq_false _ _ _ _ _ hmem hopen hclose
  refine ⟨hd, ?_⟩
  have hc : goContains responseBody payload = true := by
    unfold goContains
    rw [hidx]
    rfl
  simp [AnalyzeResponse, hc, hqual, hd]

/-- C3 witness: instantiation of the amended claim at body `<textarea>foo`
(opener present, closing tag absent). -/
theorem c3_missing_close_witness :
    isInDangerousContext "<textarea>foo".toList "foo".toList = false ∧
      (AnalyzeResponse "<textarea>foo".toList "foo".toList "q".toList).type =
        ReflectionType.EscapedReflection :=
  c3_missing_close_amended "<textarea>foo".toList "foo".toList "<textarea".toList
    "q".toList 10 10 (by decide) (by decide) (by decide) (by decide) (by decide)
    (by decide)

/-- C4: the code at the failing input. `containsEncodedPayload` builds
`"&#" + string(rune(char)) + ";"` — the character itself, not its decimal
code — so a body holding the genuine numeric reference `&#60;` for payload
`<` is not matched and `AnalyzeResponse` returns `NoReflection`; the string
the code actually matches is `&#<;`. -/
theorem c4_numeric_entity_bug :
    containsEncodedPayload "&#60;".toList "<".toList = false ∧
      (AnalyzeResponse "&#60;".toList "<".toList "q".toList).type =
        ReflectionType.NoReflection ∧
      containsEncodedPayload "&#<;".toList "<".toList = true := by
  refine ⟨by decide, by decide, by decide⟩

/-- C10: the empty payload is contained in every body, is not a common HTML
fragment, and the backward search from position 0 finds no safe container,
so `AnalyzeResponse body "" param` is always `RawReflection`. -/
theorem c10_empty_payload_raw (responseBody parameter : List Char) :
    (AnalyzeResponse responseBody [] parameter).type = ReflectionType.RawReflection := by
  have hc : goContains responseBody [] = true := goContains_nil responseBody
  have hd : isInDangerousContext responseBody [] = true :=
    isInDangerousContext_nil responseBody
  have hcf : isCommonHTMLFragment [] = false := by decide
  simp [AnalyzeResponse, hc, hd, hcf]

/-! ## Claim theorems: requester -/

theorem sendLoop_succ (attempts : Nat → AttemptOutcome) (fuel attempt : Nat)
    (lastErr : Option (List Char)) :
    sendLoop attempts (fuel + 1) attempt lastErr =
      match attempts attempt with
      | AttemptOutcome.transportError e =>
        if attempt < MaxRetries ∧ isRetryableError (some e) = true then
          ((sendLoop attempts fuel (attempt + 1) (some e)).1,
           (attempt + 1) :: (sendLoop attempts fuel (attempt + 1) (some e)).2)
        else (⟨0, [], some e⟩, [])
      | AttemptOutcome.ok status body => (⟨status, body, none⟩, []) := rfl

theorem sendLoop_ok (attempts : Nat → AttemptOutcome) (fuel attempt : Nat)
    (lastErr : Option (List Char)) (status : Nat) (body : List Char)
    (h : attempts attempt = AttemptOutcome.ok status body) :
    sendLoop attempts (fuel + 1) attempt lastErr = (⟨status, body, none⟩, []) := by
  rw [sendLoop_succ, h]

theorem sendLoop_retry_step (attempts : Nat → AttemptOutcome) (fuel attempt : Nat)
    (lastErr : Option (List Char)) (e : List Char)
    (h : attempts attempt = AttemptOutcome.transportError e)
    (hr : isRetryableError (some e) = true) (ha : attempt < MaxRetries) :
    sendLoop attempts (fuel + 1) attempt lastErr =
      ((sendLoop attempts fuel (attempt + 1) (some e)).1,
       (attempt + 1) :: (sendLoop attempts fuel (attempt + 1) (some e)).2) := by
  rw [sendLoop_succ, h]
  exact if_pos ⟨ha, hr⟩

theorem sendLoop_final_transport (attempts : Nat → AttemptOutcome) (fuel attempt : Nat)
    (lastErr : Option (List Char)) (e : List Char)
    (h : attempts attempt = AttemptOutcome.transportError e)
    (hstop : ¬ (attempt < MaxRetries ∧ isRetryableError (some e) = true)) :
    sendLoop attempts (fuel + 1) attempt lastErr = (⟨0, [], some e⟩, []) := by
  rw [sendLoop_succ, h]
  exact if_neg hstop

/-- C5: whenever an attempt produces a valid HTTP response (any status), after
any run of retryable transport failures, `SendRequest` returns that
response's status and body with `Error` nil, sleeping once per preceding
retry and never retrying past the response; and a transport error outside
the allow-list is returned at once, with no further retry. -/
theorem c5_response_no_retry (attempts : Nat → AttemptOutcome) (k status : Nat)
    (body : List Char) (hk : k ≤ MaxRetries)
    (hpre : ∀ i, i < k → ∃ e, attempts i = AttemptOutcome.transportError e ∧
        isRetryableError (some e) = true) :
    (attempts k = AttemptOutcome.ok status body →
       SendRequest attempts =
         (⟨status, body, none⟩, (List.range k).map (fun a => a + 1))) ∧
    (∀ e, attempts k = AttemptOutcome.transportError e →
       isRetryableError (some e) = false →
       SendRequest attempts =
         (⟨0, [], some e⟩, (List.range k).map (fun a => a + 1))) := by
  have hk2 : k ≤ 2 := hk
  unfold SendRequest
  interval_cases k
  · constructor
    · intro hok
      rw [sendLoop_ok attempts MaxRetries 0 none status body hok]
      rfl
    · intro e he hnr
      rw [sendLoop_final_transport attempts MaxRetries 0 none e he
        (fun hc => by rw [hnr] at hc; exact absurd hc.2 (by simp))]
      rfl
  · obtain ⟨e0, h0, r0⟩ := hpre 0 (by omega)
    constructor
    · intro hok
      rw [sendLoop_retry_step attempts MaxRetries 0 none e0 h0 r0 (by decide)]
      rw [show MaxRetries = 1 + 1 from rfl]
      rw [sendLoop_ok attempts 1 (0 + 1) (some e0) status body hok]
      rfl
    · intro e he hnr
      rw [sendLoop_retry_step attempts MaxRetries 0 none e0 h0 r0 (by decide)]
      rw [show MaxRetries = 1 + 1 from rfl]
      rw [sendLoop_final_transport attempts 1 (0 + 1) (some e0) e he
        (fun hc => by rw [hnr] at hc; exact absurd hc.2 (by simp))]
      rfl
  · obtain ⟨e0, h0, r0⟩ := hpre 0 (by omega)
    obtain ⟨e1, h1, r1⟩ := hpre 1 (by omega)
    constructor
    · intro hok
      rw [sendLoop_retry_step attempts MaxRetries 0 none e0 h0 r0 (by decide)]
      rw [show MaxRetries = 1 + 1 from rfl]
      rw [sendLoop_retry_step attempts 1 (0 + 1) (some e0) e1 h1 r1 (by decide)]
      have hS : sendLoop attempts 1 (0 + 1 + 1) (some e1) = (⟨status, body, none⟩, []) :=
        sendLoop_ok attempts 0 (0 + 1 + 1) (some e1) status body hok
      rw [hS]
      rfl
    · intro e he hnr
      rw [sendLoop_retry_step attempts MaxRetries 0 none e0 h0 r0 (by decide)]
      rw [show MaxRetries = 1 + 1 from rfl]
      rw [sendLoop_retry_step attempts 1 (0 + 1) (some e0) e1 h1 r1 (by decide)]
      have hS : sendLoop attempts 1 (0 + 1 + 1) (some e1) = (⟨0, [], some e⟩, []) :=
        sendLoop_final_transport attempts 0 (0 + 1 + 1) (some e1) e he
          (fun hc => by rw [hnr] at hc; exact absurd hc.2 (by simp))
      rw [hS]
      rfl

/-- C5 witness: attempt 0 is `connection refused` (retryable), attempt 1 a
valid HTTP 500 response, which is returned unretried after one 1s sleep. -/
theorem c5_response_no_retry_witness :
    SendRequest attemptsOneRefusal =
      (⟨500, "Internal Server Error".toList, none⟩, [1]) :=
  (c5_response_no_retry attemptsOneRefusal 1 500 ("Internal Server Error".toList)
      (by decide)
      (fun i hi => by
        interval_cases i
        exact ⟨"connection refused".toList, rfl, by decide⟩)).1 rfl

/-- C6 counterexample: with every attempt failing `connection refused`,
`SendRequest` performs the two retries with sleeps of 1s and 2s, but the
returned `Error` is the last transport error itself, not the wrapping
`request failed after 2 retries: ...` the claim asserts. -/
theorem c6_retry_exhaustion_counterexample :
    (SendRequest attemptsAllRefused).1.error = some ("connection refused".toList) ∧
      (SendRequest attemptsAllRefused).1.error ≠
        some (wrapRetryError (some ("connection refused".toList))) ∧
      (SendRequest attemptsAllRefused).2 = [1, 2] := by
  refine ⟨by decide, by decide, by decide⟩

/-- C6 amended: when every attempt fails with a retryable transport error,
`SendRequest` makes exactly `MaxRetries` additional attempts beyond the
first, sleeping `attempt index` seconds before each (1s, 2s), and returns an
outcome whose `Error` IS the last transport error, unwrapped — the wrapping
`fmt.Errorf` after the loop is unreachable for transport failures because
the final attempt returns its error directly. -/
theorem c6_retry_exhaustion_amended (attempts : Nat → AttemptOutcome)
    (e0 e1 e2 : List Char)
    (h0 : attempts 0 = AttemptOutcome.transportError e0)
    (r0 : isRetryableError (some e0) = true)
    (h1 : attempts 1 = AttemptOutcome.transportError e1)
    (r1 : isRetryableError (some e1) = true)
    (h2 : attempts 2 = AttemptOutcome.transportError e2)
    (_r2 : isRetryableError (some e2) = true) :
    SendRequest attempts = (⟨0, [], some e2⟩, [1, 2]) := by
  unfold SendRequest
  rw [sendLoop_retry_step attempts MaxRetries 0 none e0 h0 r0 (by decide)]
  rw [show MaxRetries = 1 + 1 from rfl]
  rw [sendLoop_retry_step attempts 1 (0 + 1) (some e0) e1 h1 r1 (by decide)]
  have hS : sendLoop attempts 1 (0 + 1 + 1) (some e1) = (⟨0, [], some e2⟩, []) :=
    sendLoop_final_transport attempts 0 (0 + 1 + 1) (some e1) e2 h2
      (fun hc => absurd hc.1 (by decide))
  rw [hS]

/-- C6 witness: instantiation of the amended claim with three `i/o timeout`
failures. -/
theorem c6_retry_exhaustion_witness :
    SendRequest attemptsAllTimeout = (⟨0, [], some ("i/o timeout".toList)⟩, [1, 2]) :=
  c6_retry_exhaustion_amended attemptsAllTimeout _ _ _ rfl (by decide) rfl (by decide)
    rfl (by decide)

/-! ## Claim theorems: orchestrator -/

theorem browserStep_raw (browserVerify browserAvailable : Bool)
    (verdict : ReflectionType) (verify : List Char → VerifyOutcome)
    (payload : List Char)
    (h : (browserStep browserVerify browserAvailable verdict verify payload).1 = true) :
    verdict = ReflectionType.RawReflection := by
  unfold browserStep at h
  by_cases hc : browserVerify = true ∧ browserAvailable = true ∧
      verdict = ReflectionType.RawReflection
  · exact hc.2.2
  · rw [if_neg hc] at h
    simp at h

-- Every trial recorded by `scanParameter` satisfies the invariant.
theorem scanParameter_bv_raw (stopOnHit browserVerify browserAvailable : Bool)
    (param : List Char) (step : List Char → StepOutcome)
    (verify : List Char → VerifyOutcome) (payloads : List (List Char))
    (r : ScanResult)
    (hr : r ∈ scanParameter stopOnHit browserVerify browserAvailable param step verify
        payloads)
    (hbv : r.browserVerified = true) :
    r.reflectionType = ReflectionType.RawReflection := by
  induction payloads with
  | nil => simp [scanParameter] at hr
  | cons payload rest ih =>
    cases hstep : step payload with
    | urlError =>
      simp only [scanParameter, hstep] at hr
      exact ih hr
    | requestError m =>
      simp only [scanParameter, hstep] at hr
      exact ih hr
    | response body =>
      simp only [scanParameter, hstep] at hr
      split at hr
      · have hEq := List.mem_singleton.mp hr
        subst hEq
        exact browserStep_raw _ _ _ _ _ hbv
      · rcases List.mem_cons.mp hr with hEq | hMem
        · subst hEq
          exact browserStep_raw _ _ _ _ _ hbv
        · exact ih hMem

/-- C8: for every `ScanResult` recorded across the whole scan,
`browserVerified = true` forces `reflectionType = RawReflection`; no escaped
or absent reflection ever carries the verified flag. -/
theorem c8_browser_verified_invariant (stopOnHit browserVerify : Bool)
    (browserAvailable : List Char → Bool)
    (step : List Char → List Char → StepOutcome)
    (verify : List Char → List Char → VerifyOutcome)
    (payloads params : List (List Char)) (r : ScanResult)
    (hr : r ∈ scanAll stopOnHit browserVerify browserAvailable step verify payloads params)
    (hbv : r.browserVerified = true) :
    r.reflectionType = ReflectionType.RawReflection := by
  induction params with
  | nil => simp [scanAll] at hr
  | cons param rest ih =>
    simp only [scanAll] at hr
    rcases List.mem_append.mp hr with h | h
    · exact scanParameter_bv_raw _ _ _ _ _ _ _ _ h hbv
    · exact ih h

/-- C8 witness: a raw, browser-verified trial recorded by a concrete scan,
whose verdict the invariant forces to `RawReflection`. -/
theorem c8_browser_verified_invariant_witness :
    (⟨"q".toList, "xyz".toList, ReflectionType.RawReflection, true, "alert".toList⟩ :
        ScanResult) ∈
      scanAll false true (fun _ => true) stepRaw verifyAlert ["xyz".toList] ["q".toList] ∧
    (⟨"q".toList, "xyz".toList, ReflectionType.RawReflection, true, "alert".toList⟩ :
        ScanResult).reflectionType = ReflectionType.RawReflection :=
  ⟨by decide,
   c8_browser_verified_invariant false true (fun _ => true) stepRaw verifyAlert
     ["xyz".toList] ["q".toList] _ (by decide) rfl⟩

/-- C7: with `stopOnHit` enabled, once a trial yields `RawReflection` the
remaining payloads of that parameter are never attempted — the scan of the
full payload list equals the scan truncated right after the hit, which is
still recorded — while the parameter loop of `main` continues with the next
parameter's trials unchanged. -/
theorem c7_stop_on_hit (browserVerify browserAvailable : Bool) (param hit : List Char)
    (step : List Char → StepOutcome) (verify : List Char → VerifyOutcome)
    (pre post : List (List Char))
    (hpre : ∀ p ∈ pre, isRawHit param step p = false)
    (hhit : isRawHit param step hit = true) :
    scanParameter true browserVerify browserAvailable param step verify
        (pre ++ hit :: post) =
      scanParameter true browserVerify browserAvailable param step verify
        (pre ++ [hit]) ∧
    ∀ (stopOnHit browserVerify2 : Bool) (browserAvailable2 : List Char → Bool)
      (step2 : List Char → List Char → StepOutcome)
      (verify2 : List Char → List Char → VerifyOutcome)
      (payloads params : List (List Char)),
      scanAll stopOnHit browserVerify2 browserAvailable2 step2 verify2 payloads
          (param :: params) =
        scanParameter stopOnHit browserVerify2 (browserAvailable2 param) param
            (step2 param) (verify2 param) payloads ++
          scanAll stopOnHit browserVerify2 browserAvailable2 step2 verify2 payloads
            params := by
  constructor
  · induction pre with
    | nil =>
      simp only [List.nil_append]
      cases hstep : step hit with
      | urlError =>
        unfold isRawHit at hhit
        rw [hstep] at hhit
        cases hhit
      | requestError m =>
        unfold isRawHit at hhit
        rw [hstep] at hhit
        cases hhit
      | response body =>
        have hraw : (AnalyzeResponse body hit param).type = ReflectionType.RawReflection := by
          unfold isRawHit at hhit
          rw [hstep] at hhit
          exact of_decide_eq_true hhit
        simp only [scanParameter, hstep]
        rw [if_pos ⟨hraw, by trivial⟩, if_pos ⟨hraw, by trivial⟩]
    | cons p pre2 ih =>
      have hp : isRawHit param step p = false := hpre p (List.mem_cons_self p pre2)
      have hpre2 : ∀ q ∈ pre2, isRawHit param step q = false :=
        fun q hq => hpre q (List.mem_cons_of_mem p hq)
      have ih2 := ih hpre2
      cases hstep : step p with
      | urlError =>
        simp only [List.cons_append, scanParameter, hstep]
        exact ih2
      | requestError m =>
        simp only [List.cons_append, scanParameter, hstep]
        exact ih2
      | response body =>
        have hpd : (AnalyzeResponse body p param).type ≠ ReflectionType.RawReflection := by
          unfold isRawHit at hp
          rw [hstep] at hp
          exact of_decide_eq_false hp
        simp only [List.cons_append, scanParameter, hstep]
        rw [if_neg (fun hc => hpd hc.1), if_neg (fun hc => hpd hc.1)]
        exact congrArg _ ih2
  · intro stopOnHit browserVerify2 browserAvailable2 step2 verify2 payloads params
    rfl

/-- C7 witness: payloads `AAA`, `BBB`, `CCC` where `BBB` is the first raw
hit — the scan equals its truncation after `BBB`, so `CCC` (which would also
reflect raw) is never attempted. -/
theorem c7_stop_on_hit_witness :
    scanParameter true false false "q".toList stepRefl verifyNone
        (["AAA".toList] ++ "BBB".toList :: ["CCC".toList]) =
      scanParameter true false false "q".toList stepRefl verifyNone
        (["AAA".toList] ++ ["BBB".toList]) :=
  (c7_stop_on_hit false false "q".toList "BBB".toList stepRefl verifyNone
    ["AAA".toList] ["CCC".toList]
    (fun p hp => by
      have h := List.mem_singleton.mp hp
      subst h
      decide)
    (by decide)).1

/-- C9: a trial whose HTTP request ends in a transport error contributes no
`ScanResult` and does not stop the loop: the scan of any payload list equals
the scan of that list with the transport-error payloads removed. -/
theorem c9_transport_error_skips (stopOnHit browserVerify browserAvailable : Bool)
    (param : List Char) (step : List Char → StepOutcome)
    (verify : List Char → VerifyOutcome) (payloads : List (List Char)) :
    scanParameter stopOnHit browserVerify browserAvailable param step verify payloads =
      scanParameter stopOnHit browserVerify browserAvailable param step verify
        (payloads.filter (fun p => !(isRequestError step p))) := by
  induction payloads with
  | nil => rfl
  | cons p rest ih =>
    cases hstep : step p with
    | requestError m =>
      have hre : isRequestError step p = true := by
        unfold isRequestError
        rw [hstep]
      simp only [List.filter_cons, hre, Bool.not_true, if_neg]
      simp only [scanParameter, hstep]
      exact ih
    | urlError =>
      have hre : isRequestError step p = false := by
        unfold isRequestError
        rw [hstep]
      simp only [List.filter_cons, hre, Bool.not_false, if_pos]
      simp only [scanParameter, hstep]
      exact ih
    | response body =>
      have hre : isRequestError step p = false := by
        unfold isRequestError
        rw [hstep]
      simp only [List.filter_cons, hre, Bool.not_false, if_pos]
      simp only [scanParameter, hstep]
      split
      · rfl
      · exact congrArg _ ih
